import Mathlib

/-!
Verification of the dyngoose search subsystem (src/query/search.ts): the filter
tree, the automatic index selector, the compiled request assembly, and the
paginated execution loops. Definitions are a shallow embedding of the
TypeScript source; collaborators that are not part of the sources
(expression.ts, output.ts, projection-expression.ts) are modelled from the
specification and marked as such in their doc comments.
-/

namespace Dyngoose

/-- raw DynamoDB attribute values are opaque to the search subsystem; they are
carried around but never inspected by index selection or pagination, so they
are modelled as strings. -/
abbrev DynValue := String

/-- raw items returned by the store are opaque to the search subsystem and are
modelled as natural numbers. -/
abbrev Item := Nat

/-- DynamoDB continuation keys (DynamoDB.Key) are opaque attribute maps; only
presence or absence matters to the engine, so they are modelled as natural
numbers. -/
abbrev DynKey := Nat

/-- a schema attribute; only its physical name matters to the search
subsystem. -/
structure Attribute where
  name : String
  deriving Repr, DecidableEq

/-- a single condition on one attribute, as stored in a Filters object: either
a bare scalar value (meaning equality) or an explicit operator tuple
`[operator, ...operands]`. -/
inductive Filter where
  | eqVal (value : DynValue)
  | op (operator : String) (operands : List DynValue)
  deriving Repr, DecidableEq

/-- Modelled from the spec: `keyConditionAllowedOperators` lives in
src/query/expression.ts, which is not among the sources. Per the spec's data
model it is "a fixed set of operators usable in a key condition (equality,
ordering comparisons, prefix-match, range-between)". -/
def keyConditionAllowedOperators : List String :=
  ["=", "<", "<=", ">", ">=", "between", "beginsWith"]

/-- the operator admissibility test that checkFilters performs twice: a bare
scalar (equality) always passes; an operator tuple passes when its operator is
in the key-condition-eligible set. -/
def filterKeyEligible (f : Filter) : Bool :=
  match f with
  | .eqVal _ => true
  | .op operator _ => keyConditionAllowedOperators.contains operator

/-- one entry of the ComplexFilters list held by MagicSearch: a plain Filters
group (attribute name to condition mapping, implicitly AND-ed), the literal
string marker pushed by `or()`, or a nested child filter list pushed by
`group()`. -/
inductive ComplexFilterEntry where
  | group (conditions : List (String × Filter))
  | orMarker
  | nested (sub : List ComplexFilterEntry)

/-- the `filters` field of MagicSearch: an ordered list of entries. -/
abbrev ComplexFilters := List ComplexFilterEntry

/-- whether an entry is the marker pushed by `or()`. -/
def ComplexFilterEntry.isOrMarker : ComplexFilterEntry → Bool
  | .orMarker => true
  | _ => false

/-- lookup of an attribute name inside one top-level entry, as the lodash
`has`/`get` pair behaves inside checkFilters: only a plain Filters group can
carry a condition under an attribute name; the `OR` marker string and a nested
child array have no such property, so the lookup misses them. Attribute names
are treated as atomic keys. -/
def entryLookup (entry : ComplexFilterEntry) (name : String) : Option Filter :=
  match entry with
  | .group conditions => conditions.lookup name
  | _ => none

/-- one iteration of the checkFilters loop body for a single entry: find a
condition on the hash attribute, check its operator, then, when a range
attribute exists, find and check a condition on it in the same entry. Mirrors
search.ts lines 470-508 (each `continue` becomes `false` for this entry). -/
def checkFiltersEntry (entry : ComplexFilterEntry) (hashName : String)
    (rangeName : Option String) : Bool :=
  match entryLookup entry hashName with
  | none => false
  | some hashFilter =>
    if filterKeyEligible hashFilter = false then false
    else
      match rangeName with
      | none => true
      | some rName =>
        match entryLookup entry rName with
        | none => false
        | some rangeFilter => filterKeyEligible rangeFilter

/-- MagicSearch.checkFilters (search.ts lines 468-511): scans the top-level
filter entries for one that carries a key-condition-eligible condition on the
hash attribute and, when a range attribute is given, also on the range
attribute. -/
def checkFilters (filters : ComplexFilters) (hash : Attribute)
    (range : Option Attribute) : Bool :=
  filters.any fun entry => checkFiltersEntry entry hash.name (range.map Attribute.name)

/-- projection kind of a secondary index. -/
inductive ProjectionType where
  | ALL
  | KEYS_ONLY
  | INCLUDE
  deriving Repr, DecidableEq

/-- Metadata.Index.PrimaryKey: the table's hash attribute and optional range
attribute. -/
structure PrimaryKeyMetadata where
  hash : Attribute
  range : Option Attribute
  deriving Repr, DecidableEq

/-- Metadata.Index.GlobalSecondaryIndex: a named index owning its hash,
an optional range, and a projection kind. -/
structure GlobalSecondaryIndexMetadata where
  name : String
  hash : Attribute
  range : Option Attribute
  projection : ProjectionType
  deriving Repr, DecidableEq

/-- Metadata.Index.LocalSecondaryIndex: a named index owning only a range
attribute (the hash is inherited from the table) and a projection kind. -/
structure LocalSecondaryIndexMetadata where
  name : String
  range : Attribute
  projection : ProjectionType
  deriving Repr, DecidableEq

/-- the slice of the table schema the search subsystem reads: table name,
primary key, and the two ordered secondary index catalogs. -/
structure Schema where
  name : String
  primaryKey : PrimaryKeyMetadata
  globalSecondaryIndexes : List GlobalSecondaryIndexMetadata
  localSecondaryIndexes : List LocalSecondaryIndexMetadata
  deriving Repr, DecidableEq

/-- result of the automatic index selector: the primary key metadata or a
GSI-shaped metadata object (a genuine GSI, or the object synthesized for an
LSI by `Object.assign(\x7b hash \x7d, index)`). -/
inductive SelectedIndex where
  | primary (pk : PrimaryKeyMetadata)
  | secondary (gsi : GlobalSecondaryIndexMetadata)
  deriving Repr, DecidableEq

/-- the `Object.assign(\x7b hash: primaryKey.hash \x7d, index)` synthesis used for a
matched LSI (search.ts lines 316-318 and 460-462): a GSI-shaped descriptor
combining the table's hash with the LSI's own fields. -/
def synthesizeFromLSI (primaryHash : Attribute)
    (lsi : LocalSecondaryIndexMetadata) : GlobalSecondaryIndexMetadata :=
  { name := lsi.name, hash := primaryHash, range := some lsi.range,
    projection := lsi.projection }

/-- the GSI loop of findAvailableIndex (search.ts lines 439-449): skip
restricted projections, return the first index whose hash/range pass
checkFilters. -/
def findGSILoop (filters : ComplexFilters) :
    List GlobalSecondaryIndexMetadata → Option SelectedIndex
  | [] => none
  | index :: rest =>
    if index.projection = .INCLUDE ∨ index.projection = .KEYS_ONLY then
      findGSILoop filters rest
    else if checkFilters filters index.hash index.range then
      some (.secondary index)
    else
      findGSILoop filters rest

/-- the LSI loop of findAvailableIndex (search.ts lines 452-465): skip
restricted projections, check the table's primary hash together with the LSI's
own range, and synthesize a combined descriptor on a match. -/
def findLSILoop (filters : ComplexFilters) (primaryHash : Attribute) :
    List LocalSecondaryIndexMetadata → Option SelectedIndex
  | [] => none
  | index :: rest =>
    if index.projection = .INCLUDE ∨ index.projection = .KEYS_ONLY then
      findLSILoop filters primaryHash rest
    else if checkFilters filters primaryHash (some index.range) then
      some (.secondary (synthesizeFromLSI primaryHash index))
    else
      findLSILoop filters primaryHash rest

/-- MagicSearch.findAvailableIndex (search.ts lines 431-466): primary key
first, then the GSI catalog, then the LSI catalog; undefined when nothing
matches. -/
def findAvailableIndex (schema : Schema) (filters : ComplexFilters) :
    Option SelectedIndex :=
  let primaryKey := schema.primaryKey
  if checkFilters filters primaryKey.hash primaryKey.range then
    some (.primary primaryKey)
  else
    match findGSILoop filters schema.globalSecondaryIndexes with
    | some index => some index
    | none => findLSILoop filters primaryKey.hash schema.localSecondaryIndexes

/-- the candidate list described by the spec's selection algorithm: the
primary key first, then the GSIs in declaration order that do not have an
INCLUDE or KEYS_ONLY projection, then the ALL-projection LSIs in declaration
order, each synthesized with the table's primary hash. -/
def specIndexCandidates (schema : Schema) : List SelectedIndex :=
  SelectedIndex.primary schema.primaryKey ::
    ((schema.globalSecondaryIndexes.filter fun g =>
        decide (g.projection ≠ .INCLUDE ∧ g.projection ≠ .KEYS_ONLY)).map
        SelectedIndex.secondary
      ++ (schema.localSecondaryIndexes.filter fun l =>
          decide (l.projection = .ALL)).map
          fun l => SelectedIndex.secondary (synthesizeFromLSI schema.primaryKey.hash l))

/-- eligibility of one candidate descriptor against the filter tree: its hash
attribute (for a synthesized LSI candidate this is the table's primary hash)
and its range attribute must pass checkFilters. -/
def candidateUsable (filters : ComplexFilters) : SelectedIndex → Bool
  | .primary pk => checkFilters filters pk.hash pk.range
  | .secondary gsi => checkFilters filters gsi.hash gsi.range

/-- the spec's formulation of automatic index selection: try the candidates in
the fixed priority order and return the first usable one. -/
def selectIndexSpec (schema : Schema) (filters : ComplexFilters) :
    Option SelectedIndex :=
  (specIndexCandidates schema).find? (candidateUsable filters)

/-- the two values of MagicSearchInput.rangeOrder. -/
inductive RangeOrder where
  | ASC
  | DESC
  deriving Repr, DecidableEq

/-- a caller-supplied index: a bare index name, or a reference whose metadata
is a primary key, GSI, or LSI object. -/
inductive IndexRef where
  | byName (name : String)
  | byPrimary (pk : PrimaryKeyMetadata)
  | byGSI (gsi : GlobalSecondaryIndexMetadata)
  | byLSI (lsi : LocalSecondaryIndexMetadata)
  deriving Repr, DecidableEq

/-- MagicSearchInput: the request options accumulated by the builder. -/
structure MagicSearchInput where
  limit : Option Nat := none
  exclusiveStartKey : Option DynKey := none
  attributes : Option (List String) := none
  projectionExpression : Option String := none
  rangeOrder : Option RangeOrder := none
  consistent : Option Bool := none
  returnOnlyCount : Option Bool := none
  index : Option IndexRef := none
  deriving Repr, DecidableEq

/-- the mutable state of a MagicSearch builder: the filter list and the
request options. -/
structure MagicSearchState where
  filters : ComplexFilters := []
  input : MagicSearchInput := {}

/-- MagicSearch.addFilterGroup: concatenates an array of Filters groups onto
the filter list. -/
def addFilterGroup (groups : List (List (String × Filter)))
    (s : MagicSearchState) : MagicSearchState :=
  { s with filters := s.filters ++ groups.map ComplexFilterEntry.group }

/-- MagicSearch.group (search.ts lines 56-61): the child builder's finished
filter list is pushed as a single nested entry; the callback is modelled by
passing the child's resulting filters directly. -/
def groupOp (sub : ComplexFilters) (s : MagicSearchState) : MagicSearchState :=
  { s with filters := s.filters ++ [ComplexFilterEntry.nested sub] }

/-- MagicSearch.or (search.ts lines 107-110): pushes the OR marker. -/
def orOp (s : MagicSearchState) : MagicSearchState :=
  { s with filters := s.filters ++ [ComplexFilterEntry.orMarker] }

/-- MagicSearch.and (search.ts lines 112-114): returns the builder untouched. -/
def andOp (s : MagicSearchState) : MagicSearchState :=
  s

/-- MagicSearch.limit. -/
def limitOp (n : Nat) (s : MagicSearchState) : MagicSearchState :=
  { s with input := { s.input with limit := some n } }

/-- MagicSearch.startAt. -/
def startAtOp (key : Option DynKey) (s : MagicSearchState) : MagicSearchState :=
  { s with input := { s.input with exclusiveStartKey := key } }

/-- MagicSearch.attributes: appends to the accumulated attribute-name list. -/
def attributesOp (names : List String) (s : MagicSearchState) : MagicSearchState :=
  { s with input := { s.input with attributes := some (s.input.attributes.getD [] ++ names) } }

/-- MagicSearch.count (search.ts lines 178-181): requests count-only mode. -/
def countOp (s : MagicSearchState) : MagicSearchState :=
  { s with input := { s.input with returnOnlyCount := some true } }

/-- MagicSearch.consistent. -/
def consistentOp (consistent : Bool) (s : MagicSearchState) : MagicSearchState :=
  { s with input := { s.input with consistent := some consistent } }

/-- MagicSearch.using: null clears the index, otherwise it is stored. -/
def usingOp (index : Option IndexRef) (s : MagicSearchState) : MagicSearchState :=
  { s with input := { s.input with index := index } }

/-- MagicSearch.sort (search.ts lines 210-218): ascending sets ASC, descending
sets DESC, anything else leaves the builder untouched. -/
def sortOp (direction : String) (s : MagicSearchState) : MagicSearchState :=
  if direction = "ascending" then
    { s with input := { s.input with rangeOrder := some RangeOrder.ASC } }
  else if direction = "descending" then
    { s with input := { s.input with rangeOrder := some RangeOrder.DESC } }
  else
    s

/-- MagicSearch.ascending. -/
def ascendingOp (s : MagicSearchState) : MagicSearchState :=
  sortOp "ascending" s

/-- MagicSearch.descending. -/
def descendingOp (s : MagicSearchState) : MagicSearchState :=
  sortOp "descending" s

/-- a chain of builder calls applied left to right to a starting state. -/
def applyChain (ops : List (MagicSearchState → MagicSearchState))
    (s : MagicSearchState) : MagicSearchState :=
  ops.foldl (fun state f => f state) s

/-- the QueryError thrown by getInput for a non-existent index name. -/
structure QueryError where
  message : String
  deriving Repr, DecidableEq

/-- the index metadata value flowing through getInput: the primary key, a
GSI-shaped metadata object, or an LSI metadata object used as-is. The last
case arises from the by-reference branch of getInput (search.ts line 327):
the guard compares `(typeof metadata).hash`, which is always undefined, with
the string literal, so it is always false and an LSI reference's metadata is
cast and used without a hash attribute. -/
inductive ResolvedIndex where
  | primary (pk : PrimaryKeyMetadata)
  | gsi (meta : GlobalSecondaryIndexMetadata)
  | lsiNoHash (lsi : LocalSecondaryIndexMetadata)
  deriving Repr, DecidableEq

/-- the hash attribute of a resolved index; an LSI metadata object used as-is
has none. -/
def ResolvedIndex.hashAttr : ResolvedIndex → Option Attribute
  | .primary pk => some pk.hash
  | .gsi meta => some meta.hash
  | .lsiNoHash _ => none

/-- the range attribute of a resolved index. -/
def ResolvedIndex.rangeAttr : ResolvedIndex → Option Attribute
  | .primary pk => pk.range
  | .gsi meta => meta.range
  | .lsiNoHash lsi => some lsi.range

/-- the name carried by a resolved index; the primary key metadata has no
name property, so getInput sets IndexName only for the other cases
(search.ts lines 376-378). -/
def ResolvedIndex.indexName : ResolvedIndex → Option String
  | .primary _ => none
  | .gsi meta => some meta.name
  | .lsiNoHash lsi => some lsi.name

/-- the by-name resolution of getInput (search.ts lines 303-325): a loop over
the GSIs keeping the last name match, then, only when that found nothing, a
loop over the LSIs keeping the last name match and synthesizing a descriptor
with the table's primary hash; an unresolved name throws a QueryError. -/
def resolveNamedIndex (schema : Schema) (indexName : String) :
    Except QueryError ResolvedIndex :=
  let gsiMatch := schema.globalSecondaryIndexes.foldl
    (fun found index => if index.name = indexName then some index else found) none
  match gsiMatch with
  | some index => .ok (.gsi index)
  | none =>
    let lsiMatch := schema.localSecondaryIndexes.foldl
      (fun found index => if index.name = indexName then some index else found) none
    match lsiMatch with
    | some index => .ok (.gsi (synthesizeFromLSI schema.primaryKey.hash index))
    | none => .error ⟨"Attempted to perform " ++ schema.name ++
        ".search using non-existent index " ++ indexName⟩

/-- resolution of an explicitly supplied index (search.ts lines 303-335): a
string is resolved by name; a reference's metadata is used directly, an LSI
reference staying hash-less because the synthesis guard on line 327 is always
false. -/
def resolveExplicitIndex (schema : Schema) (ref : IndexRef) :
    Except QueryError ResolvedIndex :=
  match ref with
  | .byName n => resolveNamedIndex schema n
  | .byPrimary pk => .ok (.primary pk)
  | .byGSI gsi => .ok (.gsi gsi)
  | .byLSI lsi => .ok (.lsiNoHash lsi)

/-- conversion of the automatic selector's result into the metadata value
getInput works with. -/
def SelectedIndex.toResolved : SelectedIndex → ResolvedIndex
  | .primary pk => .primary pk
  | .secondary gsi => .gsi gsi

/-- the index-resolution phase of getInput (search.ts lines 300-339): an
explicit index bypasses the automatic selector; with no explicit index,
findAvailableIndex is consulted. -/
def resolveIndex (schema : Schema) (filters : ComplexFilters)
    (ref : Option IndexRef) : Except QueryError (Option ResolvedIndex) :=
  match ref with
  | some r => (resolveExplicitIndex schema r).map some
  | none => .ok ((findAvailableIndex schema filters).map SelectedIndex.toResolved)

/-- the fields of buildQueryExpression's result that getInput reads. -/
structure QueryExpressionResult where
  KeyConditionExpression : Option String
  FilterExpression : Option String
  deriving Repr, DecidableEq

/-- Modelled from the spec: buildQueryExpression lives in
src/query/expression.ts, which is not among the sources. Per the spec, the
key condition is compiled from the entries the selector validated as
key-eligible for the index's hash attribute and remains absent when no index
was selected; the whole filter tree is compiled into a filter expression. The
expression texts themselves are placeholders, as no claim inspects them; only
presence matters. -/
def buildQueryExpression (filters : ComplexFilters)
    (indexMetadata : Option ResolvedIndex) : QueryExpressionResult :=
  let keyCondition :=
    match indexMetadata with
    | none => none
    | some r =>
      match r.hashAttr with
      | none => none
      | some h =>
        if checkFilters filters h none then some "<key-condition-expression>"
        else none
  { KeyConditionExpression := keyCondition,
    FilterExpression := if filters.isEmpty then none else some "<filter-expression>" }

/-- Modelled from the spec: buildProjectionExpression lives in
src/query/projection-expression.ts, which is not among the sources; per the
spec it resolves the requested names and emits a projection expression text.
Only its presence matters to the claims. -/
def buildProjectionExpression (attrs : List String) : String :=
  String.intercalate ", " attrs

/-- the compiled DynamoDB.ScanInput / DynamoDB.QueryInput record, restricted
to the fields the search subsystem writes or reads. -/
structure CompiledInput where
  TableName : String
  ConsistentRead : Bool
  IndexName : Option String := none
  KeyConditionExpression : Option String := none
  FilterExpression : Option String := none
  ProjectionExpression : Option String := none
  Select : Option String := none
  Limit : Option Nat := none
  ExclusiveStartKey : Option DynKey := none
  ScanIndexForward : Option Bool := none
  deriving Repr, DecidableEq

/-- getInput's projection step (search.ts lines 351-358): an explicit
projection expression wins; otherwise an attribute list produces a
SPECIFIC_ATTRIBUTES select and a built projection expression. -/
def applyProjectionParams (input : MagicSearchInput) (c : CompiledInput) :
    CompiledInput :=
  match input.projectionExpression with
  | some pe => { c with ProjectionExpression := some pe }
  | none =>
    match input.attributes with
    | some attrs =>
      { c with Select := some "SPECIFIC_ATTRIBUTES",
               ProjectionExpression := some (buildProjectionExpression attrs) }
    | none => c

/-- getInput's range-order step (search.ts lines 360-362): only DESC sets
ScanIndexForward, to false; ASC leaves the field unset. -/
def applyRangeOrder (input : MagicSearchInput) (c : CompiledInput) :
    CompiledInput :=
  if input.rangeOrder = some RangeOrder.DESC then
    { c with ScanIndexForward := some false }
  else c

/-- getInput's limit step (search.ts lines 364-366). -/
def applyLimit (input : MagicSearchInput) (c : CompiledInput) : CompiledInput :=
  match input.limit with
  | some n => { c with Limit := some n }
  | none => c

/-- getInput's start-key step (search.ts lines 368-370). -/
def applyStartKey (input : MagicSearchInput) (c : CompiledInput) : CompiledInput :=
  match input.exclusiveStartKey with
  | some k => { c with ExclusiveStartKey := some k }
  | none => c

/-- getInput's consistency step (search.ts lines 372-374). -/
def applyConsistent (input : MagicSearchInput) (c : CompiledInput) : CompiledInput :=
  match input.consistent with
  | some b => { c with ConsistentRead := b }
  | none => c

/-- getInput's index-name step (search.ts lines 376-378): set IndexName when
the metadata object carries a string name, which the primary key does not. -/
def applyIndexName (indexMetadata : Option ResolvedIndex) (c : CompiledInput) :
    CompiledInput :=
  match indexMetadata with
  | some r =>
    match r.indexName with
    | some n => { c with IndexName := some n }
    | none => c
  | none => c

/-- getInput's count step (search.ts lines 380-387): count-only mode selects
COUNT and deletes any projection expression. -/
def applyCount (input : MagicSearchInput) (c : CompiledInput) : CompiledInput :=
  if input.returnOnlyCount = some true then
    { c with Select := some "COUNT", ProjectionExpression := none }
  else c

/-- getInput's key-condition step (search.ts lines 389-391). -/
def applyKeyCondition (query : QueryExpressionResult) (c : CompiledInput) :
    CompiledInput :=
  { c with KeyConditionExpression := query.KeyConditionExpression }

/-- the sequential field assembly of getInput (search.ts lines 343-393),
applied to the base record built on lines 343-349. -/
def assembleInput (schema : Schema) (query : QueryExpressionResult)
    (indexMetadata : Option ResolvedIndex) (input : MagicSearchInput) :
    CompiledInput :=
  applyKeyCondition query
    (applyCount input
      (applyIndexName indexMetadata
        (applyConsistent input
          (applyStartKey input
            (applyLimit input
              (applyRangeOrder input
                (applyProjectionParams input
                  { TableName := schema.name, ConsistentRead := false,
                    FilterExpression := query.FilterExpression })))))))

/-- MagicSearch.getInput (search.ts lines 300-394): resolve the index (an
explicit one bypassing the automatic selector), build the expressions, and
assemble the wire-level request record. -/
def getInput (schema : Schema) (filters : ComplexFilters)
    (input : MagicSearchInput) : Except QueryError CompiledInput :=
  match resolveIndex schema filters input.index with
  | .error e => .error e
  | .ok indexMetadata =>
    .ok (assembleInput schema (buildQueryExpression filters indexMetadata)
      indexMetadata input)

/-- errors raised by the read capability (the AWS SDK call); opaque to the
search subsystem, which only wraps and re-raises them. -/
abbrev DynamoError := String

/-- a page result as the engine sees it: items, count, scanned count and the
optional continuation token. Decoding of raw items into typed documents
(QueryOutput.fromDynamoOutput) is an external collaborator and is modelled as
the identity on this record. -/
structure QueryOutputM where
  items : List Item := []
  count : Nat := 0
  scannedCount : Nat := 0
  lastEvaluatedKey : Option DynKey := none
  deriving Repr, DecidableEq

/-- errors page() can raise: the usage Error thrown for a sort direction on a
scan, or the HelpfulError wrapping a read-capability failure together with the
table and the offending request payload. -/
inductive PageError where
  | usageError (message : String)
  | helpfulError (err : DynamoError) (tableName : String) (queryInput : CompiledInput)
  deriving Repr, DecidableEq

/-- the message of the usage Error thrown on search.ts line 416. -/
def scanUsageErrorMessage : String :=
  "Cannot use specify a sort direction, range order, or use ScanIndexForward on a scan operation. Try specifying the index being used."

/-- MagicSearch.page (search.ts lines 403-429): a key condition dispatches to
the query capability, otherwise the scan capability is used after the
ScanIndexForward check and strip; a capability failure is wrapped in a
HelpfulError carrying the table and the request payload and re-raised. -/
def page (schema : Schema)
    (queryFn : CompiledInput → Except DynamoError QueryOutputM)
    (scanFn : CompiledInput → Except DynamoError QueryOutputM)
    (input : CompiledInput) : Except PageError QueryOutputM :=
  if input.KeyConditionExpression ≠ none then
    match queryFn input with
    | .ok output => .ok output
    | .error ex => .error (.helpfulError ex schema.name input)
  else if input.ScanIndexForward = some false then
    .error (.usageError scanUsageErrorMessage)
  else
    let stripped := { input with ScanIndexForward := none }
    match scanFn stripped with
    | .ok output => .ok output
    | .error ex => .error (.helpfulError ex schema.name stripped)

/-- the shape of one fetch round trip inside the pagination loops: the start
key for this request (the previous page's continuation token, or the original
start key on the first round trip) to the page result or the raised error. -/
abbrev FetchFn := Option DynKey → Except PageError QueryOutputM

/-- the fetch function the loops in minimum() and all() actually use: page()
on the compiled input with ExclusiveStartKey set to the carried key. -/
def pageFetch (schema : Schema)
    (queryFn scanFn : CompiledInput → Except DynamoError QueryOutputM)
    (input : CompiledInput) : FetchFn :=
  fun key => page schema queryFn scanFn { input with ExclusiveStartKey := key }

/-- result of running a pagination loop: the collected value, a raised error
(pages fetched before it are discarded), or fuel exhaustion of the model (the
TypeScript loop has no fuel and would still be running). -/
inductive RunResult (α : Type) where
  | ok (value : α)
  | failed (err : PageError)
  | outOfFuel
  deriving Repr, DecidableEq

/-- the loop of MagicSearch.minimum (search.ts lines 251-273): fetch a page
carrying the previous token as the start key, accumulate the count, and stop
once the accumulated count reaches the requested minimum or the token is
absent; a fetch error aborts the whole run. -/
def minimumGo (fetch : FetchFn) (n : Nat) :
    Nat → Option DynKey → Nat → RunResult (List QueryOutputM)
  | 0, _, _ => .outOfFuel
  | fuel + 1, key, count =>
    match fetch key with
    | .error e => .failed e
    | .ok p =>
      let newCount := count + p.count
      if n ≤ newCount ∨ p.lastEvaluatedKey = none then .ok [p]
      else
        match minimumGo fetch n fuel p.lastEvaluatedKey newCount with
        | .ok rest => .ok (p :: rest)
        | r => r

/-- the loop of MagicSearch.all (search.ts lines 282-298): fetch pages
carrying the token forward until a page has no token; a fetch error aborts
the whole run. -/
def allGo (fetch : FetchFn) : Nat → Option DynKey → RunResult (List QueryOutputM)
  | 0, _ => .outOfFuel
  | fuel + 1, key =>
    match fetch key with
    | .error e => .failed e
    | .ok p =>
      if p.lastEvaluatedKey = none then .ok [p]
      else
        match allGo fetch fuel p.lastEvaluatedKey with
        | .ok rest => .ok (p :: rest)
        | r => r

/-- Modelled from the spec: QueryOutput.fromSeveralOutputs lives in
src/query/output.ts, which is not among the sources. Per spec section 4.5 the
merged result concatenates items in page order, sums count and scanned-count,
and takes the last page's continuation token. -/
def fromSeveralOutputs (outputs : List QueryOutputM) : QueryOutputM :=
  { items := (outputs.map QueryOutputM.items).flatten,
    count := (outputs.map QueryOutputM.count).sum,
    scannedCount := (outputs.map QueryOutputM.scannedCount).sum,
    lastEvaluatedKey :=
      match outputs.getLast? with
      | some lastOutput => lastOutput.lastEvaluatedKey
      | none => none }

/-- MagicSearch.minimum: run the loop from the compiled input's start key and
merge the collected pages. -/
def minimumSearch (fetch : FetchFn) (n fuel : Nat) (startKey : Option DynKey) :
    RunResult QueryOutputM :=
  match minimumGo fetch n fuel startKey 0 with
  | .ok outputs => .ok (fromSeveralOutputs outputs)
  | .failed e => .failed e
  | .outOfFuel => .outOfFuel

/-- MagicSearch.all: run the loop from the compiled input's start key and
merge the collected pages. -/
def allSearch (fetch : FetchFn) (fuel : Nat) (startKey : Option DynKey) :
    RunResult QueryOutputM :=
  match allGo fetch fuel startKey with
  | .ok outputs => .ok (fromSeveralOutputs outputs)
  | .failed e => .failed e
  | .outOfFuel => .outOfFuel

/-- the pages a loop run collected are exactly the successive results of the
fetch function, each round trip starting from the previous page's continuation
token. -/
def isFetchChain (fetch : FetchFn) : Option DynKey → List QueryOutputM → Prop
  | _, [] => True
  | key, p :: rest => fetch key = .ok p ∧ isFetchChain fetch p.lastEvaluatedKey rest

/-- the stopping discipline of minimum(n): every page but the last leaves the
accumulated count below n and carries a continuation token, and the last page
pushes the count to n or has no token. -/
def minimumStops (n : Nat) : Nat → List QueryOutputM → Prop
  | _, [] => False
  | count, [p] => n ≤ count + p.count ∨ p.lastEvaluatedKey = none
  | count, p :: q :: rest =>
    ¬(n ≤ count + p.count ∨ p.lastEvaluatedKey = none) ∧
      minimumStops n (count + p.count) (q :: rest)

/-- the page-sequence shape of the exhaustive policy: every page except the
last carries a continuation token, and the last does not. -/
def exhaustShape : List QueryOutputM → Prop
  | [] => False
  | [p] => p.lastEvaluatedKey = none
  | p :: q :: rest => p.lastEvaluatedKey ≠ none ∧ exhaustShape (q :: rest)

/-- a filter on a non-key attribute, used to exercise the scan path. -/
def exStatusFilters : ComplexFilters :=
  [.group [("status", .eqVal "active")]]

/-- a table with primary hash userId, no range, and no secondary indexes. -/
def exSchemaNoMatch : Schema :=
  { name := "T",
    primaryKey := { hash := ⟨"userId"⟩, range := none },
    globalSecondaryIndexes := [],
    localSecondaryIndexes := [] }

/-- a filter tree whose condition on the primary hash sits in an OR-disjoined
branch: a condition on another attribute, the OR marker, then the hash
condition. -/
def orBranchFilters : ComplexFilters :=
  [.group [("other", .eqVal "x")], .orMarker, .group [("userId", .eqVal "u1")]]

/-- a table with primary hash userId and range createdAt. -/
def exSchemaHashRange : Schema :=
  { name := "T2",
    primaryKey := { hash := ⟨"userId"⟩, range := some ⟨"createdAt"⟩ },
    globalSecondaryIndexes := [],
    localSecondaryIndexes := [] }

/-- a single filter group carrying key-eligible conditions on both userId and
createdAt. -/
def exHashRangeFilters : ComplexFilters :=
  [.group [("userId", .eqVal "u1"), ("createdAt", .op ">" ["5"])]]

/-- first page of the minimum(25) scenario: 10 items, continuation token
present. -/
def exPage1 : QueryOutputM :=
  { items := List.range 10, count := 10, scannedCount := 10,
    lastEvaluatedKey := some 1 }

/-- second page of the minimum(25) scenario: 10 items, continuation token
present. -/
def exPage2 : QueryOutputM :=
  { items := (List.range 10).map (· + 10), count := 10, scannedCount := 10,
    lastEvaluatedKey := some 2 }

/-- third page of the minimum(25) scenario: 10 items, no continuation token. -/
def exPage3 : QueryOutputM :=
  { items := (List.range 10).map (· + 20), count := 10, scannedCount := 10,
    lastEvaluatedKey := none }

/-- the store of the minimum(25) scenario: pages of sizes 10, 10, 10 with
continuation tokens after the first two and none after the third. -/
def exFetchThreePages : FetchFn := fun key =>
  match key with
  | none => .ok exPage1
  | some 1 => .ok exPage2
  | some 2 => .ok exPage3
  | some _ => .error (.usageError "unreachable key")

/-- a store that yields one page with a continuation token and then fails. -/
def exFetchFailing : FetchFn := fun key =>
  match key with
  | none => .ok exPage1
  | some _ => .error (.helpfulError "network failure" "T" { TableName := "T", ConsistentRead := false })

/-- a small concrete page used by the scan-path counterexample. -/
def exScanPage : QueryOutputM :=
  { items := [1, 2], count := 2, scannedCount := 2, lastEvaluatedKey := none }

/-- builder input after an explicit `sort('ascending')` call. -/
def exInputAscending : MagicSearchInput :=
  { rangeOrder := some RangeOrder.ASC }

/-- builder input after an explicit `sort('descending')` call. -/
def exInputDescending : MagicSearchInput :=
  { rangeOrder := some RangeOrder.DESC }

/-- the request that getInput compiles for a status filter with ascending sort
on a table where no index matches: a scan with no key condition and no
ScanIndexForward flag. -/
def exScanCompiledAsc : CompiledInput :=
  { TableName := "T", ConsistentRead := false,
    FilterExpression := some "<filter-expression>" }

/-- builder input requesting both count-only mode and a projection. -/
def exInputCountProj : MagicSearchInput :=
  { projectionExpression := some "attrA", returnOnlyCount := some true }

/-- the request compiled from exInputCountProj on the no-index table: COUNT is
selected and the projection expression is gone. -/
def exCountCompiled : CompiledInput :=
  { TableName := "T", ConsistentRead := false,
    FilterExpression := some "<filter-expression>", Select := some "COUNT" }

/-- the request compiled from a status filter with descending sort on the
no-index table: a scan carrying ScanIndexForward false. -/
def exScanCompiledDesc : CompiledInput :=
  { TableName := "T", ConsistentRead := false,
    FilterExpression := some "<filter-expression>", ScanIndexForward := some false }

/-- a compiled request carrying a key condition, as produced for an indexed
query. -/
def exQueryCompiled : CompiledInput :=
  { TableName := "T", ConsistentRead := false,
    KeyConditionExpression := some "<key-condition-expression>" }

/-- the merged result of the minimum(25) scenario: all thirty items, no
continuation token. -/
def exMerged30 : QueryOutputM :=
  { items := List.range 30, count := 30, scannedCount := 30,
    lastEvaluatedKey := none }

/-- a table carrying one GSI and one LSI, used for name resolution. -/
def exSchemaIndexed : Schema :=
  { name := "T3",
    primaryKey := { hash := ⟨"userId"⟩, range := none },
    globalSecondaryIndexes :=
      [{ name := "byEmail", hash := ⟨"email"⟩, range := none, projection := .ALL }],
    localSecondaryIndexes :=
      [{ name := "byCreatedAt", range := ⟨"createdAt"⟩, projection := .ALL }] }

/-- a projection is neither INCLUDE nor KEYS_ONLY exactly when it is ALL. -/
theorem projection_not_restricted_iff (p : ProjectionType) :
    (¬(p = ProjectionType.INCLUDE ∨ p = ProjectionType.KEYS_ONLY)) ↔ p = ProjectionType.ALL := by
  cases p <;> simp

/-- the GSI loop of findAvailableIndex is the first-match search over the
unrestricted-projection GSI candidates. -/
theorem findGSILoop_eq_find (filters : ComplexFilters)
    (gsis : List GlobalSecondaryIndexMetadata) :
    findGSILoop filters gsis =
      ((gsis.filter fun g =>
          decide (g.projection ≠ ProjectionType.INCLUDE ∧ g.projection ≠ ProjectionType.KEYS_ONLY)).map
        SelectedIndex.secondary).find? (candidateUsable filters) := by
  induction gsis with
  | nil => rfl
  | cons g rest ih =>
    by_cases hskip : g.projection = ProjectionType.INCLUDE ∨ g.projection = ProjectionType.KEYS_ONLY
    · have hfilt : (decide (g.projection ≠ ProjectionType.INCLUDE ∧ g.projection ≠ ProjectionType.KEYS_ONLY)) = false := by
        rcases hskip with h | h <;> simp [h]
      simp only [findGSILoop, if_pos hskip, List.filter_cons, hfilt]
      exact ih
    · have hfilt : (decide (g.projection ≠ ProjectionType.INCLUDE ∧ g.projection ≠ ProjectionType.KEYS_ONLY)) = true := by
        push_neg at hskip
        simp [hskip.1, hskip.2]
      by_cases huse : checkFilters filters g.hash g.range
      · simp only [findGSILoop, if_neg hskip, if_pos huse, List.filter_cons, hfilt,
          if_pos trivial, List.map_cons]
        rw [List.find?_cons_of_pos]
        exact huse
      · simp only [findGSILoop, if_neg hskip, if_neg huse, List.filter_cons, hfilt,
          if_pos trivial, List.map_cons]
        rw [List.find?_cons_of_neg]
        · exact ih
        · simpa [candidateUsable] using huse

/-- the LSI loop of findAvailableIndex is the first-match search over the
ALL-projection synthesized LSI candidates. -/
theorem findLSILoop_eq_find (filters : ComplexFilters) (primaryHash : Attribute)
    (lsis : List LocalSecondaryIndexMetadata) :
    findLSILoop filters primaryHash lsis =
      ((lsis.filter fun l => decide (l.projection = ProjectionType.ALL)).map
        fun l => SelectedIndex.secondary (synthesizeFromLSI primaryHash l)).find?
        (candidateUsable filters) := by
  induction lsis with
  | nil => rfl
  | cons l rest ih =>
    by_cases hskip : l.projection = ProjectionType.INCLUDE ∨ l.projection = ProjectionType.KEYS_ONLY
    · have hfilt : (decide (l.projection = ProjectionType.ALL)) = false := by
        rcases hskip with h | h <;> simp [h]
      simp only [findLSILoop, if_pos hskip, List.filter_cons, hfilt]
      exact ih
    · have hall : l.projection = ProjectionType.ALL := (projection_not_restricted_iff l.projection).mp hskip
      have hfilt : (decide (l.projection = ProjectionType.ALL)) = true := by simp [hall]
      by_cases huse : checkFilters filters primaryHash (some l.range)
      · simp only [findLSILoop, if_neg hskip, if_pos huse, List.filter_cons, hfilt,
          if_pos trivial, List.map_cons]
        rw [List.find?_cons_of_pos]
        simpa [candidateUsable, synthesizeFromLSI] using huse
      · simp only [findLSILoop, if_neg hskip, if_neg huse, List.filter_cons, hfilt,
          if_pos trivial, List.map_cons]
        rw [List.find?_cons_of_neg]
        · exact ih
        · simpa [candidateUsable, synthesizeFromLSI] using huse

/-- the KeyConditionExpression of the assembled request is exactly the
compiler's key condition. -/
theorem assembleInput_keyCondition (schema : Schema) (query : QueryExpressionResult)
    (indexMetadata : Option ResolvedIndex) (input : MagicSearchInput) :
    (assembleInput schema query indexMetadata input).KeyConditionExpression =
      query.KeyConditionExpression := by
  simp [assembleInput, applyKeyCondition]

/-- C1: automatic index selection tries the candidates in the fixed priority
order, primary key first, then unrestricted-projection GSIs in declaration
order, then ALL-projection LSIs in declaration order with the synthesized
table-hash/LSI-range descriptor, and returns the first match; with no match,
no index is returned and the compiled request carries no key condition (a
scan). -/
theorem C1_index_selection_priority :
    (∀ (schema : Schema) (filters : ComplexFilters),
        findAvailableIndex schema filters = selectIndexSpec schema filters) ∧
    (∀ (schema : Schema) (filters : ComplexFilters) (input : MagicSearchInput),
        input.index = none →
        findAvailableIndex schema filters = none →
        ∃ c, getInput schema filters input = Except.ok c ∧
          c.KeyConditionExpression = none) := by
  constructor
  · intro schema filters
    unfold findAvailableIndex selectIndexSpec specIndexCandidates
    by_cases hpk : checkFilters filters schema.primaryKey.hash schema.primaryKey.range
    · simp only [if_pos hpk]
      rw [List.find?_cons_of_pos]
      exact hpk
    · simp only [if_neg hpk]
      rw [List.find?_cons_of_neg, List.find?_append,
        ← findGSILoop_eq_find, ← findLSILoop_eq_find]
      · cases findGSILoop filters schema.globalSecondaryIndexes <;>
          simp [Option.or]
      · simpa [candidateUsable] using hpk
  · intro schema filters input hidx hfind
    refine ⟨assembleInput schema (buildQueryExpression filters none) none input, ?_, ?_⟩
    · unfold getInput resolveIndex
      rw [hidx, hfind]
      rfl
    · rw [assembleInput_keyCondition]
      rfl

/-- witness for C1: on a table with no matching index and a status-only
filter, the compiled request is a scan with no key condition. -/
theorem C1_witness :
    ∃ c, getInput exSchemaNoMatch exStatusFilters {} = Except.ok c ∧
      c.KeyConditionExpression = none :=
  C1_index_selection_priority.2 exSchemaNoMatch exStatusFilters {} rfl (by decide)

/-- characterization of one checkFilters loop iteration: an entry passes
exactly when it is a plain group carrying an eligible condition on the hash
attribute and, when a range attribute is given, an eligible condition on the
range attribute as well. -/
theorem checkFiltersEntry_iff (entry : ComplexFilterEntry) (hash : Attribute)
    (range : Option Attribute) :
    checkFiltersEntry entry hash.name (range.map Attribute.name) = true ↔
      ∃ g, entry = ComplexFilterEntry.group g ∧
        (∃ hf, g.lookup hash.name = some hf ∧ filterKeyEligible hf = true) ∧
        (∀ r, range = some r →
          ∃ rf, g.lookup r.name = some rf ∧ filterKeyEligible rf = true) := by
  cases entry with
  | orMarker => simp [checkFiltersEntry, entryLookup]
  | nested sub => simp [checkFiltersEntry, entryLookup]
  | group g =>
    simp only [checkFiltersEntry, entryLookup]
    cases hl : g.lookup hash.name with
    | none => simp [hl]
    | some hf =>
      by_cases he : filterKeyEligible hf = true
      · cases range with
        | none => simp [he, hl]
        | some r =>
          cases hr : g.lookup r.name with
          | none => simp [he, hl, hr]
          | some rf => simp [he, hl, hr]
      · cases range with
        | none => simp [he, hl]
        | some r => simp [he, hl]

/-- characterization of checkFilters: it succeeds exactly when a single
top-level group entry carries an eligible hash condition and, when a range
attribute is given, an eligible range condition in that same group. -/
theorem checkFilters_iff (filters : ComplexFilters) (hash : Attribute)
    (range : Option Attribute) :
    checkFilters filters hash range = true ↔
      ∃ g, ComplexFilterEntry.group g ∈ filters ∧
        (∃ hf, g.lookup hash.name = some hf ∧ filterKeyEligible hf = true) ∧
        (∀ r, range = some r →
          ∃ rf, g.lookup r.name = some rf ∧ filterKeyEligible rf = true) := by
  unfold checkFilters
  rw [List.any_eq_true]
  constructor
  · rintro ⟨entry, hmem, hp⟩
    obtain ⟨g, rfl, hh, hr⟩ := (checkFiltersEntry_iff entry hash range).mp hp
    exact ⟨g, hmem, hh, hr⟩
  · rintro ⟨g, hmem, hh, hr⟩
    exact ⟨ComplexFilterEntry.group g, hmem,
      (checkFiltersEntry_iff (ComplexFilterEntry.group g) hash range).mpr
        ⟨g, rfl, hh, hr⟩⟩

/-- C2 counterexample: the condition on userId sits in an OR-disjoined branch
of the filter tree, separated from the first entry by the OR marker, yet
checkFilters accepts it and the automatic selector picks the primary key,
contradicting the claim that such a condition does not qualify the index. -/
theorem C2_counterexample :
    checkFilters orBranchFilters ⟨"userId"⟩ none = true ∧
    findAvailableIndex exSchemaNoMatch orBranchFilters =
      some (SelectedIndex.primary { hash := ⟨"userId"⟩, range := none }) := by
  decide

/-- C2 (amended): an index qualifies via a key-condition-eligible condition on
its hash attribute appearing in any top-level group entry; checkFilters never
looks at OR markers, so a condition in an OR-disjoined branch qualifies just
the same; when the index has a range attribute an eligible range condition
must appear in the same group, and a hash-only match suffices exactly when the
index has no range attribute. -/
theorem C2_hash_eligibility_amended :
    (∀ (filters : ComplexFilters) (hash : Attribute) (range : Option Attribute),
        checkFilters (filters.filter fun e => !e.isOrMarker) hash range =
          checkFilters filters hash range) ∧
    (∀ (filters : ComplexFilters) (hash : Attribute),
        checkFilters filters hash none = true ↔
          ∃ g hf, ComplexFilterEntry.group g ∈ filters ∧
            g.lookup hash.name = some hf ∧ filterKeyEligible hf = true) ∧
    (∀ (filters : ComplexFilters) (hash range : Attribute),
        checkFilters filters hash (some range) = true →
          ∃ g hf rf, ComplexFilterEntry.group g ∈ filters ∧
            g.lookup hash.name = some hf ∧ filterKeyEligible hf = true ∧
            g.lookup range.name = some rf ∧ filterKeyEligible rf = true) := by
  refine ⟨?_, ?_, ?_⟩
  · intro filters hash range
    unfold checkFilters
    rw [List.any_filter]
    congr 1
    funext e
    cases e <;> rfl
  · intro filters hash
    rw [checkFilters_iff]
    constructor
    · rintro ⟨g, hmem, ⟨hf, hlk, hel⟩, _⟩
      exact ⟨g, hf, hmem, hlk, hel⟩
    · rintro ⟨g, hf, hmem, hlk, hel⟩
      exact ⟨g, hmem, ⟨hf, hlk, hel⟩, by rintro r ⟨⟩⟩
  · intro filters hash range h
    obtain ⟨g, hmem, ⟨hf, hlk, hel⟩, hr⟩ := (checkFilters_iff filters hash (some range)).mp h
    obtain ⟨rf, hrlk, hrel⟩ := hr range rfl
    exact ⟨g, hf, rf, hmem, hlk, hel, hrlk, hrel⟩

/-- witness for C2: a single group carrying eligible conditions on both
userId and createdAt satisfies the hash-and-range eligibility check, and the
amended theorem recovers the same-group conditions from it. -/
theorem C2_witness :
    checkFilters exHashRangeFilters ⟨"userId"⟩ (some ⟨"createdAt"⟩) = true ∧
    (∃ g hf rf, ComplexFilterEntry.group g ∈ exHashRangeFilters ∧
      g.lookup (Attribute.mk "userId").name = some hf ∧ filterKeyEligible hf = true ∧
      g.lookup (Attribute.mk "createdAt").name = some rf ∧ filterKeyEligible rf = true) :=
  ⟨by decide,
    C2_hash_eligibility_amended.2.2 exHashRangeFilters ⟨"userId"⟩ ⟨"createdAt"⟩ (by decide)⟩

/-- C10: an index with both a hash and a range attribute is accepted exactly
when one single top-level group carries eligible conditions on both
attributes; every index the automatic selector returns passed its eligibility
check; and nested sub-group entries built by group() never contribute to
eligibility. -/
theorem C10_same_group_key_conditions :
    (∀ (schema : Schema) (filters : ComplexFilters) (idx : SelectedIndex),
        findAvailableIndex schema filters = some idx →
        candidateUsable filters idx = true) ∧
    (∀ (filters : ComplexFilters) (hash range : Attribute),
        checkFilters filters hash (some range) = true ↔
          ∃ g, ComplexFilterEntry.group g ∈ filters ∧
            (∃ hf, g.lookup hash.name = some hf ∧ filterKeyEligible hf = true) ∧
            (∃ rf, g.lookup range.name = some rf ∧ filterKeyEligible rf = true)) ∧
    (∀ (filters sub : ComplexFilters) (hash : Attribute) (range : Option Attribute),
        checkFilters (filters ++ [ComplexFilterEntry.nested sub]) hash range =
          checkFilters filters hash range) := by
  refine ⟨?_, ?_, ?_⟩
  · intro schema filters idx h
    unfold findAvailableIndex at h
    by_cases hpk : checkFilters filters schema.primaryKey.hash schema.primaryKey.range
    · rw [if_pos hpk] at h
      cases h
      simpa [candidateUsable] using hpk
    · rw [if_neg hpk] at h
      cases hg : findGSILoop filters schema.globalSecondaryIndexes with
      | some i =>
        rw [hg] at h
        cases h
        rw [findGSILoop_eq_find] at hg
        exact List.find?_some hg
      | none =>
        rw [hg] at h
        simp only [] at h
        rw [findLSILoop_eq_find] at h
        exact List.find?_some h
  · intro filters hash range
    rw [checkFilters_iff]
    constructor
    · rintro ⟨g, hmem, hh, hr⟩
      exact ⟨g, hmem, hh, hr range rfl⟩
    · rintro ⟨g, hmem, hh, hr⟩
      exact ⟨g, hmem, hh, by rintro r ⟨⟩; exact hr⟩
  · intro filters sub hash range
    unfold checkFilters
    rw [List.any_append]
    have : [ComplexFilterEntry.nested sub].any
        (fun entry => checkFiltersEntry entry hash.name (range.map Attribute.name)) = false := rfl
    simp [this]

/-- witness for C10: on the userId/createdAt table with both conditions in one
group, the selector picks the primary key and its eligibility check holds. -/
theorem C10_witness :
    candidateUsable exHashRangeFilters
      (SelectedIndex.primary { hash := ⟨"userId"⟩, range := some ⟨"createdAt"⟩ }) = true :=
  C10_same_group_key_conditions.1 exSchemaHashRange exHashRangeFilters
    (SelectedIndex.primary { hash := ⟨"userId"⟩, range := some ⟨"createdAt"⟩ }) (by decide)

/-- C9: and() returns the builder with filters and request options completely
unchanged, so inserting and() anywhere into a chain of builder calls changes
neither the final builder state nor the compiled request. -/
theorem C9_and_is_noop :
    (∀ s : MagicSearchState, andOp s = s) ∧
    (∀ (pre post : List (MagicSearchState → MagicSearchState)) (s : MagicSearchState),
        applyChain (pre ++ andOp :: post) s = applyChain (pre ++ post) s) ∧
    (∀ (schema : Schema) (pre post : List (MagicSearchState → MagicSearchState))
        (s : MagicSearchState),
        getInput schema (applyChain (pre ++ andOp :: post) s).filters
            (applyChain (pre ++ andOp :: post) s).input =
          getInput schema (applyChain (pre ++ post) s).filters
            (applyChain (pre ++ post) s).input) := by
  have h2 : ∀ (pre post : List (MagicSearchState → MagicSearchState)) (s : MagicSearchState),
      applyChain (pre ++ andOp :: post) s = applyChain (pre ++ post) s := by
    intro pre post s
    unfold applyChain
    rw [List.foldl_append, List.foldl_append, List.foldl_cons]
    rfl
  exact ⟨fun s => rfl, h2, fun schema pre post s => by rw [h2]⟩

/-- C8: count-only mode is mutually exclusive with projection: when both are
requested, the compiled request selects COUNT and carries no projection
expression. -/
theorem C8_count_discards_projection :
    (∀ s : MagicSearchState, (countOp s).input.returnOnlyCount = some true) ∧
    (∀ (schema : Schema) (filters : ComplexFilters) (input : MagicSearchInput)
        (c : CompiledInput),
        input.returnOnlyCount = some true →
        (input.projectionExpression ≠ none ∨ input.attributes ≠ none) →
        getInput schema filters input = Except.ok c →
        c.Select = some "COUNT" ∧ c.ProjectionExpression = none) := by
  constructor
  · intro s
    rfl
  · intro schema filters input c hcount hproj hok
    unfold getInput at hok
    cases hres : resolveIndex schema filters input.index with
    | error e => rw [hres] at hok; cases hok
    | ok meta =>
      rw [hres] at hok
      cases hok
      unfold assembleInput applyKeyCondition applyCount
      simp [hcount]

/-- witness for C8: a builder requesting count-only mode together with an
explicit projection expression compiles to a COUNT request without a
projection expression. -/
theorem C8_witness :
    exInputCountProj.returnOnlyCount = some true ∧
    (exCountCompiled.Select = some "COUNT" ∧ exCountCompiled.ProjectionExpression = none) :=
  ⟨rfl,
    C8_count_discards_projection.2 exSchemaNoMatch exStatusFilters exInputCountProj
      exCountCompiled rfl (Or.inl (by decide)) (by rfl)⟩

/-- the projection step leaves ScanIndexForward alone. -/
theorem applyProjectionParams_sif (input : MagicSearchInput) (c : CompiledInput) :
    (applyProjectionParams input c).ScanIndexForward = c.ScanIndexForward := by
  unfold applyProjectionParams
  cases input.projectionExpression <;> cases input.attributes <;> rfl

/-- the range-order step sets ScanIndexForward to false exactly on DESC. -/
theorem applyRangeOrder_sif (input : MagicSearchInput) (c : CompiledInput) :
    (applyRangeOrder input c).ScanIndexForward =
      if input.rangeOrder = some RangeOrder.DESC then some false
      else c.ScanIndexForward := by
  unfold applyRangeOrder
  split <;> rfl

/-- the limit step leaves ScanIndexForward alone. -/
theorem applyLimit_sif (input : MagicSearchInput) (c : CompiledInput) :
    (applyLimit input c).ScanIndexForward = c.ScanIndexForward := by
  unfold applyLimit
  cases input.limit <;> rfl

/-- the start-key step leaves ScanIndexForward alone. -/
theorem applyStartKey_sif (input : MagicSearchInput) (c : CompiledInput) :
    (applyStartKey input c).ScanIndexForward = c.ScanIndexForward := by
  unfold applyStartKey
  cases input.exclusiveStartKey <;> rfl

/-- the consistency step leaves ScanIndexForward alone. -/
theorem applyConsistent_sif (input : MagicSearchInput) (c : CompiledInput) :
    (applyConsistent input c).ScanIndexForward = c.ScanIndexForward := by
  unfold applyConsistent
  cases input.consistent <;> rfl

/-- the index-name step leaves ScanIndexForward alone. -/
theorem applyIndexName_sif (indexMetadata : Option ResolvedIndex) (c : CompiledInput) :
    (applyIndexName indexMetadata c).ScanIndexForward = c.ScanIndexForward := by
  unfold applyIndexName
  cases indexMetadata with
  | none => rfl
  | some r => cases r <;> rfl

/-- the count step leaves ScanIndexForward alone. -/
theorem applyCount_sif (input : MagicSearchInput) (c : CompiledInput) :
    (applyCount input c).ScanIndexForward = c.ScanIndexForward := by
  unfold applyCount
  split <;> rfl

/-- the assembled request carries ScanIndexForward false exactly when the
caller requested DESC. -/
theorem assembleInput_sif (schema : Schema) (query : QueryExpressionResult)
    (indexMetadata : Option ResolvedIndex) (input : MagicSearchInput) :
    (assembleInput schema query indexMetadata input).ScanIndexForward =
      (if input.rangeOrder = some RangeOrder.DESC then some false else none) := by
  unfold assembleInput applyKeyCondition
  rw [show ∀ c : CompiledInput, ({ c with KeyConditionExpression := query.KeyConditionExpression } : CompiledInput).ScanIndexForward = c.ScanIndexForward from fun c => rfl]
  rw [applyCount_sif, applyIndexName_sif, applyConsistent_sif, applyStartKey_sif,
    applyLimit_sif, applyRangeOrder_sif, applyProjectionParams_sif]

/-- C5 counterexample: the caller makes an explicit sort-direction request
(ascending), the request compiles to a scan (no key condition), and page()
issues the scan successfully instead of raising a usage error, contradicting
the claim that any explicit sort-direction request on a scan raises one. -/
theorem C5_counterexample :
    sortOp "ascending" {} = ({ input := exInputAscending } : MagicSearchState) ∧
    exInputAscending.rangeOrder = some RangeOrder.ASC ∧
    getInput exSchemaNoMatch exStatusFilters exInputAscending =
      Except.ok exScanCompiledAsc ∧
    exScanCompiledAsc.KeyConditionExpression = none ∧
    page exSchemaNoMatch (fun _ => Except.error "unused")
        (fun _ => Except.ok exScanPage) exScanCompiledAsc =
      Except.ok exScanPage := by
  refine ⟨rfl, rfl, by rfl, rfl, by rfl⟩

/-- C5 (amended): only a descending sort request sets the scan-direction flag,
and on a request that compiles to a scan it raises the usage error before any
scan is issued (for every scan capability); an ascending request sets no flag
and the scan proceeds. -/
theorem C5_descending_scan_raises :
    ∀ (schema : Schema) (filters : ComplexFilters) (input : MagicSearchInput)
      (c : CompiledInput)
      (queryFn scanFn : CompiledInput → Except DynamoError QueryOutputM),
      input.rangeOrder = some RangeOrder.DESC →
      getInput schema filters input = Except.ok c →
      c.KeyConditionExpression = none →
      page schema queryFn scanFn c =
        Except.error (PageError.usageError scanUsageErrorMessage) := by
  intro schema filters input c queryFn scanFn hdesc hok hkey
  have hsif : c.ScanIndexForward = some false := by
    unfold getInput at hok
    cases hres : resolveIndex schema filters input.index with
    | error e => rw [hres] at hok; cases hok
    | ok meta =>
      rw [hres] at hok
      cases hok
      rw [assembleInput_sif]
      simp [hdesc]
  unfold page
  simp [hkey, hsif]

/-- witness for C5: descending sort on the status-filter scan raises the
usage error for arbitrary capabilities. -/
theorem C5_witness :
    page exSchemaNoMatch (fun _ => Except.error "unusedQ")
        (fun _ => Except.ok exScanPage) exScanCompiledDesc =
      Except.error (PageError.usageError scanUsageErrorMessage) :=
  C5_descending_scan_raises exSchemaNoMatch exStatusFilters exInputDescending
    exScanCompiledDesc (fun _ => Except.error "unusedQ") (fun _ => Except.ok exScanPage)
    rfl (by rfl) rfl

/-- a last-match fold over a list with no matching element keeps its
accumulator. -/
theorem foldl_keep_of_no_match {α : Type} (n : String) (nameOf : α → String) :
    ∀ (l : List α) (acc : Option α), (∀ x ∈ l, nameOf x ≠ n) →
      l.foldl (fun found x => if nameOf x = n then some x else found) acc = acc := by
  intro l
  induction l with
  | nil => intro acc _; rfl
  | cons x t ih =>
    intro acc h
    rw [List.foldl_cons, if_neg (h x (List.mem_cons_self x t))]
    exact ih acc fun y hy => h y (List.mem_cons_of_mem x hy)

/-- a last-match fold over a list containing a matching element returns some
matching element of the list. -/
theorem foldl_match_exists {α : Type} (n : String) (nameOf : α → String) :
    ∀ (l : List α) (acc : Option α), (∃ x ∈ l, nameOf x = n) →
      ∃ x, x ∈ l ∧ nameOf x = n ∧
        l.foldl (fun found y => if nameOf y = n then some y else found) acc = some x := by
  intro l
  induction l with
  | nil => rintro acc ⟨x, hx, _⟩; cases hx
  | cons x t ih =>
    intro acc h
    by_cases ht : ∃ y ∈ t, nameOf y = n
    · obtain ⟨y, hy, hpy, hfold⟩ := ih (if nameOf x = n then some x else acc) ht
      exact ⟨y, List.mem_cons_of_mem x hy, hpy, by rw [List.foldl_cons]; exact hfold⟩
    · have hx : nameOf x = n := by
        obtain ⟨z, hz, hpz⟩ := h
        rcases List.mem_cons.mp hz with rfl | hz'
        · exact hpz
        · exact absurd ⟨z, hz', hpz⟩ ht
      refine ⟨x, List.mem_cons_self x t, hx, ?_⟩
      rw [List.foldl_cons, if_pos hx]
      exact foldl_keep_of_no_match n nameOf t (some x)
        fun y hy hpy => ht ⟨y, hy, hpy⟩

/-- C6: an explicitly supplied index bypasses the automatic selector (the
resolution never consults the filter tree); a name is resolved first against
the GSI catalog, then against the LSI catalog with the table's primary hash
synthesized in, and an unresolved name raises the QueryError, which getInput
propagates. -/
theorem C6_explicit_index_resolution :
    (∀ (schema : Schema) (ref : IndexRef) (filters filters2 : ComplexFilters),
        resolveIndex schema filters (some ref) = resolveIndex schema filters2 (some ref)) ∧
    (∀ (schema : Schema) (n : String),
        (∃ g ∈ schema.globalSecondaryIndexes, g.name = n) →
        ∃ g, g ∈ schema.globalSecondaryIndexes ∧ g.name = n ∧
          resolveNamedIndex schema n = Except.ok (ResolvedIndex.gsi g)) ∧
    (∀ (schema : Schema) (n : String),
        (∀ g ∈ schema.globalSecondaryIndexes, g.name ≠ n) →
        (∃ l ∈ schema.localSecondaryIndexes, l.name = n) →
        ∃ l, l ∈ schema.localSecondaryIndexes ∧ l.name = n ∧
          resolveNamedIndex schema n =
            Except.ok (ResolvedIndex.gsi (synthesizeFromLSI schema.primaryKey.hash l))) ∧
    (∀ (schema : Schema) (n : String),
        (∀ g ∈ schema.globalSecondaryIndexes, g.name ≠ n) →
        (∀ l ∈ schema.localSecondaryIndexes, l.name ≠ n) →
        resolveNamedIndex schema n = Except.error ⟨"Attempted to perform " ++
          schema.name ++ ".search using non-existent index " ++ n⟩) ∧
    (∀ (schema : Schema) (filters : ComplexFilters) (input : MagicSearchInput)
        (n : String) (e : QueryError),
        input.index = some (IndexRef.byName n) →
        resolveNamedIndex schema n = Except.error e →
        getInput schema filters input = Except.error e) := by
  refine ⟨?_, ?_, ?_, ?_, ?_⟩
  · intro schema ref filters filters2
    rfl
  · intro schema n hex
    obtain ⟨g, hg, hname, hfold⟩ :=
      foldl_match_exists n (fun x => x.name) schema.globalSecondaryIndexes none hex
    refine ⟨g, hg, hname, ?_⟩
    unfold resolveNamedIndex
    rw [hfold]
  · intro schema n hnone hex
    obtain ⟨l, hl, hname, hfold⟩ :=
      foldl_match_exists n (fun x => x.name) schema.localSecondaryIndexes none hex
    refine ⟨l, hl, hname, ?_⟩
    have hg0 : schema.globalSecondaryIndexes.foldl
        (fun found index => if index.name = n then some index else found) none =
          (none : Option GlobalSecondaryIndexMetadata) :=
      foldl_keep_of_no_match n (fun x => x.name) schema.globalSecondaryIndexes none hnone
    simp [resolveNamedIndex, hg0, hfold]
  · intro schema n hnog hnol
    have hg0 : schema.globalSecondaryIndexes.foldl
        (fun found index => if index.name = n then some index else found) none =
          (none : Option GlobalSecondaryIndexMetadata) :=
      foldl_keep_of_no_match n (fun x => x.name) schema.globalSecondaryIndexes none hnog
    have hl0 : schema.localSecondaryIndexes.foldl
        (fun found index => if index.name = n then some index else found) none =
          (none : Option LocalSecondaryIndexMetadata) :=
      foldl_keep_of_no_match n (fun x => x.name) schema.localSecondaryIndexes none hnol
    simp [resolveNamedIndex, hg0, hl0]
  · intro schema filters input n e hidx herr
    unfold getInput resolveIndex
    rw [hidx]
    simp [resolveExplicitIndex, herr, Except.map]

/-- witness for C6: on the indexed table the LSI name byCreatedAt, absent
from the GSI catalog, resolves to the synthesized descriptor carrying the
table's primary hash. -/
theorem C6_witness :
    ∃ l, l ∈ exSchemaIndexed.localSecondaryIndexes ∧ l.name = "byCreatedAt" ∧
      resolveNamedIndex exSchemaIndexed "byCreatedAt" =
        Except.ok (ResolvedIndex.gsi
          (synthesizeFromLSI exSchemaIndexed.primaryKey.hash l)) :=
  C6_explicit_index_resolution.2.2.1 exSchemaIndexed "byCreatedAt"
    (by decide) (by decide)

/-- one unfolding of the minimum() loop. -/
theorem minimumGo_succ (fetch : FetchFn) (n fuel : Nat) (key : Option DynKey)
    (count : Nat) :
    minimumGo fetch n (fuel + 1) key count =
      match fetch key with
      | .error e => .failed e
      | .ok p =>
        if n ≤ count + p.count ∨ p.lastEvaluatedKey = none then .ok [p]
        else
          match minimumGo fetch n fuel p.lastEvaluatedKey (count + p.count) with
          | .ok rest => .ok (p :: rest)
          | r => r := rfl

/-- one unfolding of the all() loop. -/
theorem allGo_succ (fetch : FetchFn) (fuel : Nat) (key : Option DynKey) :
    allGo fetch (fuel + 1) key =
      match fetch key with
      | .error e => .failed e
      | .ok p =>
        if p.lastEvaluatedKey = none then .ok [p]
        else
          match allGo fetch fuel p.lastEvaluatedKey with
          | .ok rest => .ok (p :: rest)
          | r => r := rfl

/-- C7: a compiled request with a key condition dispatches to the query
capability (the scan capability is never consulted) and one without
dispatches to the scan capability; a capability failure is wrapped in a
HelpfulError carrying the table and the offending request and re-raised,
never swallowed; and a failure mid-pagination aborts the whole run,
discarding the pages already fetched. -/
theorem C7_dispatch_wrap_abort :
    (∀ (schema : Schema)
        (queryFn scanFn scanFn2 : CompiledInput → Except DynamoError QueryOutputM)
        (input : CompiledInput),
        input.KeyConditionExpression ≠ none →
        page schema queryFn scanFn input = page schema queryFn scanFn2 input) ∧
    (∀ (schema : Schema)
        (queryFn scanFn : CompiledInput → Except DynamoError QueryOutputM)
        (input : CompiledInput) (output : QueryOutputM),
        input.KeyConditionExpression ≠ none →
        queryFn input = Except.ok output →
        page schema queryFn scanFn input = Except.ok output) ∧
    (∀ (schema : Schema)
        (queryFn scanFn : CompiledInput → Except DynamoError QueryOutputM)
        (input : CompiledInput) (ex : DynamoError),
        input.KeyConditionExpression ≠ none →
        queryFn input = Except.error ex →
        page schema queryFn scanFn input =
          Except.error (PageError.helpfulError ex schema.name input)) ∧
    (∀ (schema : Schema)
        (queryFn queryFn2 scanFn : CompiledInput → Except DynamoError QueryOutputM)
        (input : CompiledInput),
        input.KeyConditionExpression = none →
        page schema queryFn scanFn input = page schema queryFn2 scanFn input) ∧
    (∀ (schema : Schema)
        (queryFn scanFn : CompiledInput → Except DynamoError QueryOutputM)
        (input : CompiledInput) (ex : DynamoError),
        input.KeyConditionExpression = none →
        input.ScanIndexForward ≠ some false →
        scanFn { input with ScanIndexForward := none } = Except.error ex →
        page schema queryFn scanFn input =
          Except.error (PageError.helpfulError ex schema.name
            { input with ScanIndexForward := none })) ∧
    (∀ (fetch : FetchFn) (key : Option DynKey) (p : QueryOutputM) (k2 : DynKey)
        (e : PageError) (n fuel : Nat),
        fetch key = Except.ok p →
        p.lastEvaluatedKey = some k2 →
        fetch (some k2) = Except.error e →
        p.count < n →
        minimumSearch fetch n (fuel + 2) key = RunResult.failed e ∧
        allSearch fetch (fuel + 2) key = RunResult.failed e) := by
  refine ⟨?_, ?_, ?_, ?_, ?_, ?_⟩
  · intro schema queryFn scanFn scanFn2 input hkey
    unfold page
    rw [if_pos hkey, if_pos hkey]
  · intro schema queryFn scanFn input output hkey hq
    unfold page
    rw [if_pos hkey, hq]
  · intro schema queryFn scanFn input ex hkey hq
    unfold page
    rw [if_pos hkey, hq]
  · intro schema queryFn queryFn2 scanFn input hkey
    unfold page
    simp [hkey]
  · intro schema queryFn scanFn input ex hkey hsif hscan
    unfold page
    rw [hkey] at hscan
    simp [hkey, hsif, hscan]
  · intro fetch key p k2 e n fuel hk hp hk2 hcount
    have hnotstop : ¬(n ≤ 0 + p.count ∨ p.lastEvaluatedKey = none) := by
      rw [hp]
      push_neg
      exact ⟨by omega, by simp⟩
    have hmin : minimumGo fetch n (fuel + 1 + 1) key 0 = RunResult.failed e := by
      rw [minimumGo_succ, hk]
      simp only [if_neg hnotstop]
      rw [hp, minimumGo_succ, hk2]
    have hall : allGo fetch (fuel + 1 + 1) key = RunResult.failed e := by
      rw [allGo_succ, hk]
      have hne : ¬(p.lastEvaluatedKey = none) := by simp [hp]
      simp only [if_neg hne]
      rw [hp, allGo_succ, hk2]
    constructor
    · unfold minimumSearch
      rw [show fuel + 2 = fuel + 1 + 1 from rfl, hmin]
    · unfold allSearch
      rw [show fuel + 2 = fuel + 1 + 1 from rfl, hall]

/-- witness for C7: the failing store yields one page with a continuation
token and then fails; both pagination policies abort with the wrapped error
and the already-fetched page is discarded. -/
theorem C7_witness :
    minimumSearch exFetchFailing 25 2 none =
      RunResult.failed (PageError.helpfulError "network failure" "T"
        { TableName := "T", ConsistentRead := false }) ∧
    allSearch exFetchFailing 2 none =
      RunResult.failed (PageError.helpfulError "network failure" "T"
        { TableName := "T", ConsistentRead := false }) :=
  C7_dispatch_wrap_abort.2.2.2.2.2 exFetchFailing none exPage1 1
    (PageError.helpfulError "network failure" "T"
      { TableName := "T", ConsistentRead := false }) 25 0
    rfl rfl rfl (by decide)

/-- soundness of the minimum() loop: any completed run is a fetch chain and
follows the stopping discipline exactly. -/
theorem minimumGo_sound (fetch : FetchFn) (n : Nat) :
    ∀ (fuel : Nat) (key : Option DynKey) (count : Nat) (outputs : List QueryOutputM),
      minimumGo fetch n fuel key count = RunResult.ok outputs →
      isFetchChain fetch key outputs ∧ minimumStops n count outputs := by
  intro fuel
  induction fuel with
  | zero =>
    intro key count outputs h
    exact RunResult.noConfusion h
  | succ fuel ih =>
    intro key count outputs h
    rw [minimumGo_succ] at h
    cases hk : fetch key with
    | error e =>
      rw [hk] at h
      exact RunResult.noConfusion h
    | ok p =>
      rw [hk] at h
      dsimp only at h
      by_cases hstop : n ≤ count + p.count ∨ p.lastEvaluatedKey = none
      · rw [if_pos hstop] at h
        cases h
        exact ⟨⟨hk, trivial⟩, hstop⟩
      · rw [if_neg hstop] at h
        cases hrec : minimumGo fetch n fuel p.lastEvaluatedKey (count + p.count) with
        | ok rest =>
          rw [hrec] at h
          cases h
          obtain ⟨hchain, hstops⟩ := ih p.lastEvaluatedKey (count + p.count) rest hrec
          refine ⟨⟨hk, hchain⟩, ?_⟩
          cases rest with
          | nil => exact absurd hstops (by simp [minimumStops])
          | cons q rs => exact ⟨hstop, hstops⟩
        | failed e =>
          rw [hrec] at h
          exact RunResult.noConfusion h
        | outOfFuel =>
          rw [hrec] at h
          exact RunResult.noConfusion h

/-- C3: the minimum(n) policy fetches pages carrying each page's continuation
token forward as the next start key, accumulates the count, and stops exactly
when the count reaches n or the token is absent; on the 10/10/10 store with
tokens after the first two pages, minimum(25) fetches all three pages and
merges them into 30 items with an absent token. -/
theorem C3_minimum_policy :
    (∀ (fetch : FetchFn) (n fuel : Nat) (key : Option DynKey)
        (outputs : List QueryOutputM),
        minimumGo fetch n fuel key 0 = RunResult.ok outputs →
        isFetchChain fetch key outputs ∧ minimumStops n 0 outputs) ∧
    (minimumGo exFetchThreePages 25 3 none 0 =
        RunResult.ok [exPage1, exPage2, exPage3] ∧
      minimumSearch exFetchThreePages 25 3 none = RunResult.ok exMerged30 ∧
      exMerged30.items.length = 30 ∧ exMerged30.lastEvaluatedKey = none) := by
  refine ⟨?_, by decide, by decide, by decide, by decide⟩
  intro fetch n fuel key outputs h
  exact minimumGo_sound fetch n fuel key 0 outputs h

/-- witness for C3: the three-page run is a fetch chain obeying the stopping
discipline of minimum(25). -/
theorem C3_witness :
    isFetchChain exFetchThreePages none [exPage1, exPage2, exPage3] ∧
    minimumStops 25 0 [exPage1, exPage2, exPage3] :=
  C3_minimum_policy.1 exFetchThreePages 25 3 none [exPage1, exPage2, exPage3]
    (by decide)

/-- C4: the exhaustive policy follows a k-page chain in which every page but
the last carries a continuation token, fetching exactly k pages, and the
merged result concatenates all pages' items in page order with an absent
continuation token. -/
theorem C4_all_policy :
    ∀ (fetch : FetchFn) (key : Option DynKey) (outputs : List QueryOutputM),
      isFetchChain fetch key outputs →
      exhaustShape outputs →
      allGo fetch outputs.length key = RunResult.ok outputs ∧
      allSearch fetch outputs.length key =
        RunResult.ok (fromSeveralOutputs outputs) ∧
      (fromSeveralOutputs outputs).items =
        (outputs.map QueryOutputM.items).flatten ∧
      (fromSeveralOutputs outputs).lastEvaluatedKey = none := by
  intro fetch key outputs
  induction outputs generalizing key with
  | nil =>
    intro _ hshape
    exact absurd hshape (by simp [exhaustShape])
  | cons p rest ih =>
    intro hchain hshape
    obtain ⟨hk, hchain2⟩ := hchain
    cases rest with
    | nil =>
      have hnone : p.lastEvaluatedKey = none := hshape
      have hgo : allGo fetch ([p].length) key = RunResult.ok [p] := by
        simp only [List.length_cons, List.length_nil]
        rw [allGo_succ, hk]
        dsimp only
        rw [if_pos hnone]
      refine ⟨hgo, ?_, rfl, ?_⟩
      · unfold allSearch
        rw [hgo]
      · simp [fromSeveralOutputs, hnone]
    | cons q rs =>
      obtain ⟨hne, hshape2⟩ := hshape
      obtain ⟨hgo2, hsearch2, hitems2, hlast2⟩ := ih p.lastEvaluatedKey hchain2 hshape2
      have hgo : allGo fetch ((p :: q :: rs).length) key =
          RunResult.ok (p :: q :: rs) := by
        simp only [List.length_cons]
        rw [allGo_succ, hk]
        dsimp only
        rw [if_neg hne]
        simp only [List.length_cons] at hgo2
        rw [hgo2]
      refine ⟨hgo, ?_, rfl, ?_⟩
      · unfold allSearch
        rw [hgo]
      · have : (p :: q :: rs).getLast? = (q :: rs).getLast? :=
          List.getLast?_cons_cons
        simp only [fromSeveralOutputs] at hlast2 ⊢
        rw [this]
        exact hlast2

/-- witness for C4: the tail chain of the three-page store (two pages, token
on the first only) is fully fetched and merged with an absent token. -/
theorem C4_witness :
    allGo exFetchThreePages 2 (some 1) = RunResult.ok [exPage2, exPage3] ∧
    allSearch exFetchThreePages 2 (some 1) =
      RunResult.ok (fromSeveralOutputs [exPage2, exPage3]) ∧
    (fromSeveralOutputs [exPage2, exPage3]).items =
      ([exPage2, exPage3].map QueryOutputM.items).flatten ∧
    (fromSeveralOutputs [exPage2, exPage3]).lastEvaluatedKey = none :=
  C4_all_policy exFetchThreePages (some 1) [exPage2, exPage3]
    ⟨rfl, rfl, trivial⟩ ⟨by simp [exPage2], rfl⟩

end Dyngoose
